import Mathlib

/- Shallow embedding of the stang interpreter core: the runtime object model
   (evaluator/object.go), the scope chain (evaluator/scope.go), the error
   registry (evaluator/errors.go), the tree-walking evaluator
   (evaluator/eval.go) and the parser precedence table (parser/parser.go).

   Mutable Go state (objects mutated in place, shared slice backing arrays,
   scope frames) is modelled by explicit state passing: a heap of object
   values, a store of slice backing arrays and a store of scope frames, all
   addressed by natural numbers; Go interface values of type Object are
   addresses into the heap.  Go runtime panics (method calls on nil
   interfaces, out-of-range slice indexing) are modelled by a distinguished
   crash outcome.  Go float64 payloads are modelled as exact rationals; IEEE
   rounding, infinities and NaN are not modelled and no theorem below
   depends on an inexact float value. -/

namespace Stang

/-- Runtime value kinds, mirroring the ObjectType constants of object.go. -/
inductive ObjType
  | integerObj | floatObj | booleanObj | nullObj | returnValueObj
  | breakObj | continueObj | errorObj | functionObj | stringObj
  | builtinObj | arrayObj | hashObj
  deriving DecidableEq, Repr

/-- The Go string constant each ObjectType denotes (object.go). -/
def typeName : ObjType → String
  | .integerObj => "INTEGER"
  | .floatObj => "FLOAT"
  | .booleanObj => "BOOLEAN"
  | .nullObj => "NULL"
  | .returnValueObj => "RETURN_VALUE"
  | .breakObj => "BREAK"
  | .continueObj => "CONTINUE"
  | .errorObj => "ERROR"
  | .functionObj => "FUNCTION"
  | .stringObj => "STRING"
  | .builtinObj => "BUILTIN"
  | .arrayObj => "ARRAY"
  | .hashObj => "HASH"

/-- Error kinds of the runtime error registry (errors.go).  The Go code
    renders each kind together with its arguments through a format string;
    we keep the kind and the rendered argument list. -/
inductive ErrKind
  | prefixop | infixop | postfixop | unknownident | nomethoderror
  | noindexerror | nothashable | indexerror | sliceerror
  | argumentnumerror | argumenttypeerror | rterror | constructerr
  | inlenerr | dividebyzero | notfunc | redefine | timeout
  | notlvalue | indexint
  | custom (msg : String)
  deriving DecidableEq, Repr

/-- AST nodes of the fragment the verified properties exercise (ast.go).
    The loop, delete and typeof statements and the if expression are
    omitted: no verified property concerns them.  A hash literal keeps its
    pairs as a list; the Go node holds them in a map whose iteration order
    is unspecified, and every verified program uses a single-pair literal.
    Fields the parser may leave absent on error recovery (a let
    initializer, a return value) are Options, mirroring nil AST
    pointers. -/
inductive Ast
  | program (stmts : List Ast)
  | exprStmt (e : Option Ast)
  | blockStmt (stmts : List Ast)
  | returnStmt (v : Option Ast)
  | letStmt (name : String) (v : Option Ast)
  | ident (name : String)
  | intLit (n : Int)
  | floatLit (q : ℚ)
  | boolLit (b : Bool)
  | strLit (s : String)
  | nullLit
  | arrayLit (elems : List Ast)
  | hashLit (pairs : List (Ast × Ast))
  | funcLit (params : List String) (body : Ast)
  | prefixE (op : String) (right : Ast)
  | infixE (left : Ast) (op : String) (right : Ast)
  | postfixE (left : Ast) (op : String)
  | assignE (target : Ast) (op : String) (value : Ast)
  | callE (fn : Ast) (args : List Ast)
  | methodCallE (obj : Ast) (call : Ast)
  | indexE (left : Ast) (index : Ast)
  | sliceE (start : Ast) (endE : Option Ast)

/-- Heap addresses: a Go Object interface value is a pointer; we model it as
    an index into the heap list of the evaluation state. -/
abbrev Addr := Nat

/-- A hash key: (ObjectType, uint64 digest), as in object.go. -/
structure HashKeyL where
  ty : ObjType
  value : Nat
  deriving DecidableEq, Repr

/-- Runtime object values (object.go).  arrV mirrors a Go Array object
    holding a slice header (backing array id, offset, length) — slicing
    shares the backing store, exactly as Go slices do.  funcV captures the
    defining scope by id (the closure).  builtinV values exist as a kind
    only; the builtins registry itself is not embedded (no verified
    property mentions a builtin). -/
inductive ObjValue
  | intV (n : Int)
  | floatV (q : ℚ)
  | boolV (b : Bool)
  | nullV
  | strV (s : String)
  | errV (kind : ErrKind) (args : List String)
  | breakV
  | continueV
  | returnV (v : Option Addr)
  | arrV (backing off len : Nat)
  | hashV (pairs : List (HashKeyL × Addr × Addr))
  | funcV (params : List String) (body : Ast) (scope : Nat)
  | builtinV (name : String)

/-- The ObjectType of a value, mirroring each variant's Type() method. -/
def ObjValue.type : ObjValue → ObjType
  | .intV _ => .integerObj
  | .floatV _ => .floatObj
  | .boolV _ => .booleanObj
  | .nullV => .nullObj
  | .strV _ => .stringObj
  | .errV _ _ => .errorObj
  | .breakV => .breakObj
  | .continueV => .continueObj
  | .returnV _ => .returnValueObj
  | .arrV _ _ _ => .arrayObj
  | .hashV _ => .hashObj
  | .funcV _ _ _ => .functionObj
  | .builtinV _ => .builtinObj

/-- One scope frame: an owned name-to-object mapping plus a link to the
    parent frame (scope.go). -/
structure Frame where
  store : List (String × Addr)
  parent : Option Nat
  deriving DecidableEq, Repr

/-- The evaluation state: the object heap, the store of slice backing
    arrays, and the store of scope frames. -/
structure St where
  heap : List ObjValue
  backs : List (List Addr)
  frames : List Frame

/-- Address of the NULL singleton in the initial heap. -/
def NULLa : Addr := 0

/-- Address of the TRUE singleton. -/
def TRUEa : Addr := 1

/-- Address of the FALSE singleton. -/
def FALSEa : Addr := 2

/-- Address of the BREAK singleton. -/
def BREAKa : Addr := 3

/-- Address of the CONTINUE singleton. -/
def CONTINUEa : Addr := 4

/-- The initial state: the five package-level singleton objects of eval.go
    and one root scope frame (id 0) with no parent. -/
def initSt : St :=
  { heap := [.nullV, .boolV true, .boolV false, .breakV, .continueV]
    backs := []
    frames := [{ store := [], parent := none }] }

/-- Dereference an address (reading a Go pointer). -/
def St.obj (st : St) (a : Addr) : ObjValue := st.heap.getD a .nullV

/-- Kind of the object at an address. -/
def St.typeOf (st : St) (a : Addr) : ObjType := (st.obj a).type

/-- Allocate a fresh object (a Go address-of-composite-literal). -/
def alloc (st : St) (v : ObjValue) : Addr × St :=
  (st.heap.length, { st with heap := st.heap ++ [v] })

/-- Overwrite the object at an address (in-place mutation of a Go object). -/
def setObj (st : St) (a : Addr) (v : ObjValue) : St :=
  { st with heap := st.heap.set a v }

/-- Allocate a fresh slice backing array. -/
def allocBack (st : St) (elems : List Addr) : Nat × St :=
  (st.backs.length, { st with backs := st.backs ++ [elems] })

/-- Read a backing array. -/
def backGet (st : St) (b : Nat) : List Addr := st.backs.getD b []

/-- Write one cell of a backing array. -/
def backSetCell (st : St) (b : Nat) (i : Nat) (a : Addr) : St :=
  { st with backs := st.backs.set b ((backGet st b).set i a) }

/-- Lookup in one frame's store (a Go map read). -/
def storeGet : List (String × Addr) → String → Option Addr
  | [], _ => none
  | (k, a) :: rest, key => if k = key then some a else storeGet rest key

/-- Update one frame's store (a Go map write). -/
def storeSet : List (String × Addr) → String → Addr → List (String × Addr)
  | [], key, a => [(key, a)]
  | (k, v) :: rest, key, a =>
      if k = key then (k, a) :: rest else (k, v) :: storeSet rest key a

/-- The frame record of a scope id. -/
def frameOf (st : St) (sid : Nat) : Frame := st.frames.getD sid { store := [], parent := none }

/-- Walk the parent chain like Scope.Get does: while the key is unbound in
    the current frame and a parent exists, move to the parent; return the id
    of the frame where the walk stops.  The fuel equals the frame-store
    size, enough for any acyclic chain. -/
def findFrame (st : St) : Nat → Nat → String → Nat
  | 0, sid, _ => sid
  | fuel + 1, sid, key =>
      match storeGet (frameOf st sid).store key, (frameOf st sid).parent with
      | none, some p => findFrame st fuel p key
      | _, _ => sid

/-- Scope.Get: search self then ancestors. -/
def scopeGet (st : St) (sid : Nat) (key : String) : Option Addr :=
  storeGet (frameOf st (findFrame st st.frames.length sid key)).store key

/-- Scope.GetCurrent: search the current frame only. -/
def scopeGetCurrent (st : St) (sid : Nat) (key : String) : Option Addr :=
  storeGet (frameOf st sid).store key

/-- Scope.Set: always bind in the current frame, return the value. -/
def scopeSet (st : St) (sid : Nat) (key : String) (a : Addr) : St :=
  { st with
    frames := st.frames.set sid
      { frameOf st sid with store := storeSet (frameOf st sid).store key a } }

/-- Scope.Reset: walk to the frame that binds the key and overwrite there;
    the Bool is false when no frame binds the key (then nothing is bound,
    but the passed value is still returned, as in the Go code). -/
def scopeReset (st : St) (sid : Nat) (key : String) (a : Addr) : St × Bool :=
  let f := findFrame st st.frames.length sid key
  match storeGet (frameOf st f).store key with
  | some _ =>
      ({ st with
         frames := st.frames.set f
           { frameOf st f with store := storeSet (frameOf st f).store key a } }, true)
  | none => (st, false)

/-- NewScope: allocate a child frame. -/
def newScope (st : St) (parent : Option Nat) : Nat × St :=
  (st.frames.length, { st with frames := st.frames ++ [{ store := [], parent := parent }] })

/-- Outcome of a computation: a value, a Go runtime panic, or fuel
    exhaustion of the embedding (never reached by the verified programs). -/
inductive Res (α : Type)
  | ok (a : α)
  | crash
  | nofuel

/-- nativeBoolToBooleanObject of eval.go: the Boolean singletons. -/
def nativeBoolToBooleanObject (b : Bool) : Addr := if b then TRUEa else FALSEa

/-- isNumber of eval.go. -/
def isNumber (v : ObjValue) : Bool :=
  v.type = .integerObj || v.type = .floatObj

/-- isTruthy of eval.go: false for boolean false, Null, Integer 0 and
    Float 0.0; everything else is true. -/
def isTruthy : ObjValue → Bool
  | .boolV b => b
  | .nullV => false
  | .intV n => if n = 0 then false else true
  | .floatV q => if q = 0 then false else true
  | _ => true

/-- evalEquality of eval.go: value equality, defined only for same-kind
    pairs of Boolean, Null, Integer, Float, String; every other pair is
    not equal. -/
def evalEquality (left right : ObjValue) : Bool :=
  if left.type ≠ right.type then false
  else
    match left, right with
    | .boolV a, .boolV b => a = b
    | .nullV, .nullV => true
    | .intV a, .intV b => a = b
    | .floatV a, .floatV b => a = b
    | .strV a, .strV b => a = b
    | _, _ => false

/-- Truncation of a rational toward zero: the int64(...) conversion Go
    applies to float64 intermediates. -/
def ratTrunc (q : ℚ) : Int := if q < 0 then -(Int.floor (-q)) else Int.floor q

/-- Go int64 division truncates toward zero. -/
def goIntDiv (a b : Int) : Int := Int.tdiv a b

/-- math.Mod over exact rationals: the remainder keeps the dividend's sign.
    Go returns NaN when the divisor is zero; modelled as 0, and no verified
    program takes the modulo of anything by zero. -/
def goMod (a b : ℚ) : ℚ := if b = 0 then 0 else a - (ratTrunc (a / b)) * b

/-- The numeric payload of an Integer or Float object promoted to a
    rational, mirroring the float64 promotion in evalNumberInfixExpression
    (exact here; Go rounds to float64). -/
def numVal : ObjValue → ℚ
  | .intV n => (n : ℚ)
  | .floatV q => q
  | _ => 0

/-- calcIndex of eval.go: normalize a (possibly negative) index against a
    length; returns the normalized index together with an error value when
    the index is not an Integer or is out of range.  For a slice end index
    the admissible range is one larger. -/
def calcIndex (max : Int) (idxObj : ObjValue) (isEnd : Bool) : Int × Option ObjValue :=
  match idxObj with
  | .intV i =>
      let max := if isEnd then max + 1 else max
      let originIdx := i
      let idx := if i < 0 then i + max else i
      if idx ≥ max then
        (idx, some (.errV .indexerror [toString originIdx, toString (0 : Int), toString (max - 1)]))
      else if idx < 0 then
        (idx, some (.errV .indexerror [toString originIdx, toString (-1 : Int), toString (-max)]))
      else (idx, none)
  | _ => (0, some (.errV .indexint []))

/-- Allocate an error object (newError of errors.go). -/
def allocErr (st : St) (k : ErrKind) (args : List String) : Addr × St :=
  alloc st (.errV k args)

/-- Go name of the kind of the object at an address, for error arguments. -/
def typeNameAt (st : St) (a : Addr) : String := typeName (st.typeOf a)

/-- Decimal rendering of a Float payload.  Go uses
    strconv.FormatFloat(v, 102, -1, 64) (shortest decimal form); for the
    integral rationals the verified programs use the two coincide, and no
    verified property renders or hashes a non-integral float. -/
def goFloatFormat (q : ℚ) : String :=
  if q.den = 1 then toString q.num else toString q

/-- Canonical textual rendering of an object, mirroring the String(stack)
    methods of object.go with their recursion-depth guard of 10.  Error
    messages are rendered from the kept kind and arguments rather than
    through fmt.Sprintf; no verified property compares rendered error
    text. -/
def renderObj (st : St) : Nat → Nat → Addr → String
  | 0, _, _ => ""
  | fuel + 1, stack, a =>
      match st.obj a with
      | .intV n => toString n
      | .floatV q => goFloatFormat q
      | .boolV b => if b then "true" else "false"
      | .nullV => "null"
      | .strV s => s
      | .errV _ args => "Error: " ++ String.intercalate " " args
      | .breakV => "break"
      | .continueV => "continue"
      | .returnV v =>
          match v with
          | some x => renderObj st fuel stack x
          | none => ""
      | .arrV b off len =>
          if stack = 10 then "ARRAY..."
          else
            "[" ++ String.intercalate ", "
              ((((backGet st b).drop off).take len).map (renderObj st fuel (stack + 1)))
              ++ "]"
      | .hashV pairs =>
          if stack = 10 then "HASH..."
          else
            "\x7b" ++ String.intercalate ", "
              (pairs.map fun p =>
                renderObj st fuel (stack + 1) p.2.1 ++ ":" ++ renderObj st fuel (stack + 1) p.2.2)
              ++ "\x7d"
      | .funcV params _ _ =>
          "function(" ++ String.intercalate ", " params ++ ") \x7b ... \x7d"
      | .builtinV _ => "[builtin]"

/-- Rendering fuel ample for every verified program. -/
def renderFuel : Nat := 32

/-- evalBangExpression of eval.go: the singleton pointers are compared
    first, then Integer and Float payloads; everything else is false. -/
def evalBangExpression (st : St) (a : Addr) : Addr :=
  if a = TRUEa then FALSEa
  else if a = FALSEa then TRUEa
  else if a = NULLa then TRUEa
  else
    match st.obj a with
    | .intV n => if n = 0 then TRUEa else FALSEa
    | .floatV q => if q = 0 then TRUEa else FALSEa
    | _ => FALSEa

/-- evalMinusPrefixExpression of eval.go: negate a number into a fresh
    object; every non-numeric operand yields the NULL singleton. -/
def evalMinusPrefixExpression (st : St) (a : Addr) : Addr × St :=
  match st.obj a with
  | .intV n => alloc st (.intV (-n))
  | .floatV q => alloc st (.floatV (-q))
  | _ => (NULLa, st)

/-- evalIncrPrefixExpression: mutate the numeric object in place, return a
    fresh object holding the new value; non-numeric yields NULL. -/
def evalIncrPrefixExpression (st : St) (a : Addr) : Addr × St :=
  match st.obj a with
  | .intV n => alloc (setObj st a (.intV (n + 1))) (.intV (n + 1))
  | .floatV q => alloc (setObj st a (.floatV (q + 1))) (.floatV (q + 1))
  | _ => (NULLa, st)

/-- evalIncrPostfixExpression: mutate in place, return a fresh object
    holding the prior value; non-numeric yields NULL. -/
def evalIncrPostfixExpression (st : St) (a : Addr) : Addr × St :=
  match st.obj a with
  | .intV n => alloc (setObj st a (.intV (n + 1))) (.intV n)
  | .floatV q => alloc (setObj st a (.floatV (q + 1))) (.floatV q)
  | _ => (NULLa, st)

/-- evalDecrPrefixExpression, as evalIncrPrefixExpression. -/
def evalDecrPrefixExpression (st : St) (a : Addr) : Addr × St :=
  match st.obj a with
  | .intV n => alloc (setObj st a (.intV (n - 1))) (.intV (n - 1))
  | .floatV q => alloc (setObj st a (.floatV (q - 1))) (.floatV (q - 1))
  | _ => (NULLa, st)

/-- evalDecrPostfixExpression, as evalIncrPostfixExpression. -/
def evalDecrPostfixExpression (st : St) (a : Addr) : Addr × St :=
  match st.obj a with
  | .intV n => alloc (setObj st a (.intV (n - 1))) (.intV n)
  | .floatV q => alloc (setObj st a (.floatV (q - 1))) (.floatV q)
  | _ => (NULLa, st)

/-- evalPrefixExpression of eval.go. -/
def evalPrefixExpression (st : St) (op : String) (a : Addr) : Addr × St :=
  if (st.obj a).type = .errorObj then (a, st)
  else if op = "!" then (evalBangExpression st a, st)
  else if op = "-" then evalMinusPrefixExpression st a
  else if op = "++" then evalIncrPrefixExpression st a
  else if op = "--" then evalDecrPrefixExpression st a
  else allocErr st .prefixop [op, typeNameAt st a]

/-- evalPostfixExpression of eval.go. -/
def evalPostfixExpression (st : St) (a : Addr) (op : String) : Addr × St :=
  if (st.obj a).type = .errorObj then (a, st)
  else if op = "++" then evalIncrPostfixExpression st a
  else if op = "--" then evalDecrPostfixExpression st a
  else allocErr st .postfixop [op, typeNameAt st a]

/-- evalNumberInfixExpression of eval.go: both operands are promoted to
    float64 (exact rationals here); an Integer result is produced exactly
    when both operands were Integers, via truncation of the float
    intermediate. -/
def evalNumberInfixExpression (st : St) (l : Addr) (op : String) (r : Addr) : Addr × St :=
  let lo := st.obj l
  let ro := st.obj r
  let needInt := lo.type = .integerObj ∧ ro.type = .integerObj
  let lv := numVal lo
  let rv := numVal ro
  if op = "+" then
    if needInt then alloc st (.intV (ratTrunc (lv + rv))) else alloc st (.floatV (lv + rv))
  else if op = "-" then
    if needInt then alloc st (.intV (ratTrunc (lv - rv))) else alloc st (.floatV (lv - rv))
  else if op = "*" then
    if needInt then alloc st (.intV (ratTrunc (lv * rv))) else alloc st (.floatV (lv * rv))
  else if op = "/" then
    if rv = 0 then allocErr st .dividebyzero []
    else if needInt then alloc st (.intV (ratTrunc (lv / rv)))
    else alloc st (.floatV (lv / rv))
  else if op = "%" then
    let m := goMod lv rv
    if needInt then alloc st (.intV (ratTrunc m)) else alloc st (.floatV m)
  else if op = ">" then (nativeBoolToBooleanObject (decide (lv > rv)), st)
  else if op = ">=" then (nativeBoolToBooleanObject (decide (lv ≥ rv)), st)
  else if op = "<" then (nativeBoolToBooleanObject (decide (lv < rv)), st)
  else if op = "<=" then (nativeBoolToBooleanObject (decide (lv ≤ rv)), st)
  else if op = "==" then (nativeBoolToBooleanObject (decide (lv = rv)), st)
  else if op = "!=" then (nativeBoolToBooleanObject (decide (lv ≠ rv)), st)
  else allocErr st .infixop [op, typeNameAt st l, typeNameAt st r]

/-- evalStringInfixExpression of eval.go: + concatenates the rendered
    forms; everything else is an unsupported-infix error. -/
def evalStringInfixExpression (st : St) (l : Addr) (op : String) (r : Addr) : Addr × St :=
  if op = "+" then
    alloc st (.strV (renderObj st renderFuel 0 l ++ renderObj st renderFuel 0 r))
  else allocErr st .infixop [op, typeNameAt st l, typeNameAt st r]

/-- evalInfixExpression of eval.go.  Note the case order: the numeric case
    precedes the equality cases, so a pair of numeric operands reaches
    evalNumberInfixExpression even for the == and != operators. -/
def evalInfixExpression (st : St) (l : Addr) (op : String) (r : Addr) : Addr × St :=
  if (st.obj l).type = .errorObj then (l, st)
  else if (st.obj r).type = .errorObj then (r, st)
  else if op = "&&" then
    (nativeBoolToBooleanObject (isTruthy (st.obj l) && isTruthy (st.obj r)), st)
  else if op = "||" then
    (nativeBoolToBooleanObject (isTruthy (st.obj l) || isTruthy (st.obj r)), st)
  else if isNumber (st.obj l) && isNumber (st.obj r) then
    evalNumberInfixExpression st l op r
  else if op = "==" then
    (nativeBoolToBooleanObject (evalEquality (st.obj l) (st.obj r)), st)
  else if op = "!=" then
    (nativeBoolToBooleanObject (! evalEquality (st.obj l) (st.obj r)), st)
  else if (st.obj l).type = .stringObj || (st.obj r).type = .stringObj then
    evalStringInfixExpression st l op r
  else allocErr st .infixop [op, typeNameAt st l, typeNameAt st r]

/-- FNV-1a 64 offset basis. -/
def fnvOffset : Nat := 14695981039346656037

/-- FNV-1a 64 prime. -/
def fnvPrime : Nat := 1099511628211

/-- FNV-1a 64 over a byte sequence, as hash/fnv computes it. -/
def fnv64 (bytes : List UInt8) : Nat :=
  bytes.foldl (fun h b => ((h ^^^ b.toNat) * fnvPrime) % 2 ^ 64) fnvOffset

/-- UTF-8 bytes of a string. -/
def strBytes (s : String) : List UInt8 := s.toUTF8.toList

/-- HashKey of object.go: defined for Integer (the raw value as uint64),
    Boolean (0 or 1), String (FNV-1a 64 of the text) and Float (FNV-1a 64
    of the decimal rendering); every other kind is not hashable. -/
def hashKeyOf : ObjValue → Option HashKeyL
  | .intV n => some ⟨.integerObj, (n % (2 : Int) ^ 64).toNat⟩
  | .boolV b => some ⟨.booleanObj, if b then 1 else 0⟩
  | .strV s => some ⟨.stringObj, fnv64 (strBytes s)⟩
  | .floatV q => some ⟨.floatObj, fnv64 (strBytes (goFloatFormat q))⟩
  | _ => none

/-- Lookup in a hash's pair list by key digest (a Go map read). -/
def pairsGet : List (HashKeyL × Addr × Addr) → HashKeyL → Option (Addr × Addr)
  | [], _ => none
  | (k, kv) :: rest, key => if k = key then some kv else pairsGet rest key

/-- Replace-or-insert in a hash's pair list (a Go map write). -/
def pairsSet : List (HashKeyL × Addr × Addr) → HashKeyL → Addr × Addr →
    List (HashKeyL × Addr × Addr)
  | [], key, kv => [(key, kv)]
  | (k, v) :: rest, key, kv =>
      if k = key then (k, kv) :: rest else (k, v) :: pairsSet rest key kv

/-- The pair list of the Hash object at an address (call sites guarantee
    the object is a Hash). -/
def hashPairsAt (st : St) (a : Addr) : List (HashKeyL × Addr × Addr) :=
  match st.obj a with
  | .hashV pairs => pairs
  | _ => []

/-- updateArray of eval.go, over a slice header (backing id, offset,
    length).  Plain = stores the new element; compound operators mutate a
    numeric or string element in place or replace an Integer element by a
    fresh Float.  An index outside the slice bounds is a Go runtime panic
    (crash); the division cases check for a zero divisor; note the
    asymmetry of the source: an Integer element with a non-numeric operand
    is an unsupported-infix error, while a Float element with a non-numeric
    operand falls through both branches and returns the element unchanged. -/
def updateArray (st : St) (b off len : Nat) (idx : Int) (op : String)
    (newValue : Option Addr) : Res (Addr × St) :=
  if idx < 0 ∨ idx ≥ (len : Int) then .crash
  else
    let i := off + idx.toNat
    if op = "=" then
      match newValue with
      | some nv => .ok (nv, backSetCell st b i nv)
      | none => .crash
    else
      let oldAddr := (backGet st b).getD i NULLa
      match newValue with
      | none => .crash
      | some nv =>
          match st.obj oldAddr, st.obj nv with
          | .intV o, .intV m =>
              if op = "+=" then .ok (oldAddr, setObj st oldAddr (.intV (o + m)))
              else if op = "-=" then .ok (oldAddr, setObj st oldAddr (.intV (o - m)))
              else if op = "*=" then .ok (oldAddr, setObj st oldAddr (.intV (o * m)))
              else if op = "/=" then
                if m = 0 then .ok (allocErr st .dividebyzero [])
                else .ok (oldAddr, setObj st oldAddr (.intV (goIntDiv o m)))
              else .ok (allocErr st .infixop [op, "INTEGER", "INTEGER"])
          | .intV o, .floatV q =>
              if op = "+=" then
                let (a2, st2) := alloc st (.floatV ((o : ℚ) + q))
                .ok (a2, backSetCell st2 b i a2)
              else if op = "-=" then
                let (a2, st2) := alloc st (.floatV ((o : ℚ) - q))
                .ok (a2, backSetCell st2 b i a2)
              else if op = "*=" then
                let (a2, st2) := alloc st (.floatV ((o : ℚ) * q))
                .ok (a2, backSetCell st2 b i a2)
              else if op = "/=" then
                if q = 0 then .ok (allocErr st .dividebyzero [])
                else
                  let (a2, st2) := alloc st (.floatV ((o : ℚ) / q))
                  .ok (a2, backSetCell st2 b i a2)
              else .ok (allocErr st .infixop [op, "INTEGER", "FLOAT"])
          | .intV _, w =>
              .ok (allocErr st .infixop [op, "INTEGER", typeName w.type])
          | .floatV o, w =>
              let m : ℚ :=
                match w with
                | .intV n => (n : ℚ)
                | .floatV q => q
                | _ => 0
              let numeric := isNumber w
              if op = "+=" then
                .ok (oldAddr, if numeric then setObj st oldAddr (.floatV (o + m)) else st)
              else if op = "-=" then
                .ok (oldAddr, if numeric then setObj st oldAddr (.floatV (o - m)) else st)
              else if op = "*=" then
                .ok (oldAddr, if numeric then setObj st oldAddr (.floatV (o * m)) else st)
              else if op = "/=" then
                if numeric ∧ m = 0 then .ok (allocErr st .dividebyzero [])
                else .ok (oldAddr, if numeric then setObj st oldAddr (.floatV (o / m)) else st)
              else .ok (allocErr st .infixop [op, "FLOAT", typeName w.type])
          | .strV o, w =>
              if op = "+=" then
                .ok (oldAddr, setObj st oldAddr (.strV (o ++ renderObj st renderFuel 0 nv)))
              else .ok (allocErr st .infixop [op, "STRING", typeName w.type])
          | oldV, w =>
              .ok (allocErr st .infixop [op, typeName oldV.type, typeName w.type])

/-- updateHash of eval.go.  Plain = writes the pair (storing the new key
    object alongside the value); compound operators mutate the mapped value
    like updateArray does, with the same division-by-zero checks and the
    same Integer/Float asymmetry; replacing an Integer value by a Float
    stores the current key object anew.  A compound operator on an absent
    key reads the Type() of a nil value — a Go runtime panic. -/
def updateHash (st : St) (h : Addr) (k : Addr) (op : String)
    (newValue : Option Addr) : Res (Addr × St) :=
  match hashKeyOf (st.obj k) with
  | none => .ok (allocErr st .nothashable [typeNameAt st k])
  | some hk =>
      let pairs := hashPairsAt st h
      if op = "=" then
        match newValue with
        | some nv => .ok (nv, setObj st h (.hashV (pairsSet pairs hk (k, nv))))
        | none => .crash
      else
        match pairsGet pairs hk with
        | none => .crash
        | some (_, oldAddr) =>
            match newValue with
            | none => .crash
            | some nv =>
                match st.obj oldAddr, st.obj nv with
                | .intV o, .intV m =>
                    if op = "+=" then .ok (oldAddr, setObj st oldAddr (.intV (o + m)))
                    else if op = "-=" then .ok (oldAddr, setObj st oldAddr (.intV (o - m)))
                    else if op = "*=" then .ok (oldAddr, setObj st oldAddr (.intV (o * m)))
                    else if op = "/=" then
                      if m = 0 then .ok (allocErr st .dividebyzero [])
                      else .ok (oldAddr, setObj st oldAddr (.intV (goIntDiv o m)))
                    else .ok (allocErr st .infixop [op, "INTEGER", "INTEGER"])
                | .intV o, .floatV q =>
                    let store (st : St) (x : ℚ) : Res (Addr × St) :=
                      let (a2, st2) := alloc st (.floatV x)
                      .ok (a2, setObj st2 h (.hashV (pairsSet (hashPairsAt st2 h) hk (k, a2))))
                    if op = "+=" then store st ((o : ℚ) + q)
                    else if op = "-=" then store st ((o : ℚ) - q)
                    else if op = "*=" then store st ((o : ℚ) * q)
                    else if op = "/=" then
                      if q = 0 then .ok (allocErr st .dividebyzero [])
                      else store st ((o : ℚ) / q)
                    else .ok (allocErr st .infixop [op, "INTEGER", "FLOAT"])
                | .intV _, w =>
                    .ok (allocErr st .infixop [op, "INTEGER", typeName w.type])
                | .floatV o, w =>
                    let m : ℚ :=
                      match w with
                      | .intV n => (n : ℚ)
                      | .floatV q => q
                      | _ => 0
                    let numeric := isNumber w
                    if op = "+=" then
                      .ok (oldAddr, if numeric then setObj st oldAddr (.floatV (o + m)) else st)
                    else if op = "-=" then
                      .ok (oldAddr, if numeric then setObj st oldAddr (.floatV (o - m)) else st)
                    else if op = "*=" then
                      .ok (oldAddr, if numeric then setObj st oldAddr (.floatV (o * m)) else st)
                    else if op = "/=" then
                      if numeric ∧ m = 0 then .ok (allocErr st .dividebyzero [])
                      else .ok (oldAddr, if numeric then setObj st oldAddr (.floatV (o / m)) else st)
                    else .ok (allocErr st .infixop [op, "FLOAT", typeName w.type])
                | .strV o, w =>
                    if op = "+=" then
                      .ok (oldAddr, setObj st oldAddr (.strV (o ++ renderObj st renderFuel 0 nv)))
                    else .ok (allocErr st .infixop [op, "STRING", typeName w.type])
                | oldV, w =>
                    .ok (allocErr st .infixop [op, typeName oldV.type, typeName w.type])

/-- If the pattern is a prefix of the list, the remainder after it. -/
def dropPre : List Char → List Char → Option (List Char)
  | [], rest => some rest
  | _ :: _, [] => none
  | p :: ps, c :: cs => if c = p then dropPre ps cs else none

/-- Left-to-right scan splitting at each non-overlapping occurrence of a
    non-empty separator; the fuel exceeds the input length, and every step
    consumes at least one character. -/
def splitLoop (sep : List Char) : Nat → List Char → List Char → List (List Char)
  | 0, acc, _ => [acc.reverse]
  | _ + 1, acc, [] => [acc.reverse]
  | fuel + 1, acc, c :: cs =>
      match dropPre sep (c :: cs) with
      | some rest => acc.reverse :: splitLoop sep fuel [] rest
      | none => splitLoop sep fuel (c :: acc) cs

/-- strings.Split: with an empty separator the string splits into its
    characters (Go splits at UTF-8 rune boundaries), otherwise at each
    non-overlapping occurrence of the separator. -/
def goSplit (s sep : String) : List String :=
  if sep = "" then s.data.map (fun c => String.mk [c])
  else (splitLoop sep.data (s.data.length + 1) [] s.data).map String.mk

/-- Allocate a list of String objects. -/
def allocStrings (st : St) : List String → List Addr × St
  | [] => ([], st)
  | s :: rest =>
      let (a, st1) := alloc st (.strV s)
      let (as2, st2) := allocStrings st1 rest
      (a :: as2, st2)

/-- Allocate an Array object over fresh backing storage. -/
def allocArrayOf (st : St) (elems : List Addr) : Addr × St :=
  let (b, st1) := allocBack st elems
  alloc st1 (.arrV b 0 elems.length)

/-- CallMethod dispatch of object.go.  String implements toLower, toUpper
    and split; note that split checks its argument type by reading
    args[1].Type() although the arity check just ensured len(args) == 1, so
    a single non-String argument is an index-out-of-range runtime panic
    (crash).  Array implements push and pop; push reallocates the backing
    store here, whereas Go append may reuse spare capacity — no verified
    property concerns push.  Every other kind, and every unknown method
    name, is an undefined-method error. -/
def callMethod (st : St) (a : Addr) (method : String) (args : List Addr) :
    Res (Addr × St) :=
  match st.obj a with
  | .strV s =>
      if method = "toLower" then
        if args.length ≠ 0 then
          .ok (allocErr st .argumentnumerror ["0", toString args.length])
        else .ok (alloc st (.strV s.toLower))
      else if method = "toUpper" then
        if args.length ≠ 0 then
          .ok (allocErr st .argumentnumerror ["0", toString args.length])
        else .ok (alloc st (.strV s.toUpper))
      else if method = "split" then
        match args with
        | [a0] =>
            if st.typeOf a0 ≠ .stringObj then
              .crash
            else
              let sep := match st.obj a0 with | .strV t => t | _ => ""
              let (addrs, st1) := allocStrings st (goSplit s sep)
              .ok (allocArrayOf st1 addrs)
        | _ => .ok (allocErr st .argumentnumerror ["1", toString args.length])
      else .ok (allocErr st .nomethoderror [method, "STRING"])
  | .arrV b off len =>
      if method = "push" then
        let elems := (((backGet st b).drop off).take len) ++ args
        let (nb, st1) := allocBack st elems
        let st2 := setObj st1 a (.arrV nb 0 elems.length)
        .ok (alloc st2 (.intV elems.length))
      else if method = "pop" then
        if len = 0 then .ok (allocErr st (.custom "array is empty") [])
        else
          let ret := (backGet st b).getD (off + (len - 1)) NULLa
          .ok (ret, setObj st a (.arrV b off (len - 1)))
      else .ok (allocErr st .nomethoderror [method, "ARRAY"])
  | v => .ok (allocErr st .nomethoderror [method, typeName v.type])

/-- Bind for outcome-carrying computations. -/
def Res.bind {α β : Type} : Res α → (α → Res β) → Res β
  | .ok a, f => f a
  | .crash, _ => .crash
  | .nofuel, _ => .nofuel

instance : Monad Res where
  pure := .ok
  bind := Res.bind

/-- The statement-sequence skip test: empty expression statements (a nil
    Expression left by parser error recovery) are skipped by evalProgram
    and evalBlockStatement. -/
def isEmptyExprStmt : Ast → Bool
  | .exprStmt none => true
  | _ => false

/-- The walk evalAssignExpression performs on an index target: unwrap
    nested IndexExpressions down to the innermost non-index left-hand
    side. -/
def innermostLeft : Ast → Ast
  | .indexE l _ => innermostLeft l
  | e => e

/-- Whether an assignment target node is a plain identifier. -/
def isIdentAst : Ast → Bool
  | .ident _ => true
  | _ => false

/-- The rendered name of a method-call callee (method.Function.String()).
    The verified programs only call methods through an identifier; the full
    AST String() rendering is not embedded. -/
def identName : Ast → String
  | .ident n => n
  | _ => ""

/-- Positional argument binding of applyFunction: Set each parameter in the
    fresh child scope; the Go loop indexes args[i] and panics when fewer
    arguments than parameters were passed (none), while extra arguments are
    ignored. -/
def bindParams (st : St) (sub : Nat) : List String → List Addr → Option St
  | [], _ => some st
  | p :: ps, a :: rest => bindParams (scopeSet st sub p a) sub ps rest
  | _ :: _, [] => none

/-- evalNumberAssignExpression of eval.go: compound assignment into a
    numeric scalar binding.  The operands are promoted to float64 (exact
    here); an Integer result is produced when both sides are Integers, each
    truncated back from the float intermediate.  Only the Integer-Integer
    division checks for a zero divisor — the float path divides
    unconditionally (Go produces an IEEE infinity). -/
def evalNumberAssignExpression (st : St) (name : String) (oldValue newValue : Addr)
    (op : String) (sid : Nat) : Addr × St :=
  if ¬ isNumber (st.obj newValue) then
    allocErr st .infixop [op, typeNameAt st oldValue, typeNameAt st newValue]
  else
    let needInt := st.typeOf oldValue = .integerObj ∧ st.typeOf newValue = .integerObj
    let oldV := numVal (st.obj oldValue)
    let newV := numVal (st.obj newValue)
    let resetWith (v : ObjValue) : Addr × St :=
      let (a, st1) := alloc st v
      (a, (scopeReset st1 sid name a).1)
    if op = "+=" then
      if needInt then resetWith (.intV (ratTrunc oldV + ratTrunc newV))
      else resetWith (.floatV (oldV + newV))
    else if op = "-=" then
      if needInt then resetWith (.intV (ratTrunc oldV - ratTrunc newV))
      else resetWith (.floatV (oldV - newV))
    else if op = "*=" then
      if needInt then resetWith (.intV (ratTrunc oldV * ratTrunc newV))
      else resetWith (.floatV (oldV * newV))
    else if op = "/=" then
      if needInt then
        if newV = 0 then allocErr st .dividebyzero []
        else resetWith (.intV (goIntDiv (ratTrunc oldV) (ratTrunc newV)))
      else resetWith (.floatV (oldV / newV))
    else allocErr st .infixop [op, typeNameAt st oldValue, typeNameAt st newValue]

mutual

/-- Eval of eval.go: the evaluator's dispatch over AST node kinds, indexed
    by fuel (every recursive entry consumes one unit; the verified programs
    are all finite and loop-free, so ample fuel makes the model total).
    The cancellation check at the head of the Go function is not modelled
    (no verified property concerns timeouts).  A node kind with no case —
    here only a bare SliceExpression — makes Go return a nil Object,
    modelled as ok none; Go method calls on such a nil result are modelled
    as crash at the call sites that perform them.  The identifier case
    omits the fallback into the global builtins registry: no verified
    program mentions a builtin name. -/
def Eval (fuel : Nat) (node : Ast) (sid : Nat) (st : St) : Res (Option Addr × St) :=
  match fuel with
  | 0 => .nofuel
  | f + 1 =>
      match node with
      | .program stmts => evalProgram f stmts sid st none
      | .exprStmt e => evalOpt f e sid st
      | .blockStmt stmts => evalBlockStatement f stmts sid st none
      | .returnStmt v => do
          let (r, st1) ← evalOpt f v sid st
          let (a, st2) := alloc st1 (.returnV r)
          return (some a, st2)
      | .letStmt name v => evalLetStatement f name v sid st
      | .ident name =>
          match scopeGet st sid name with
          | some a => return (some a, st)
          | none =>
              let (e, st1) := allocErr st .unknownident [name]
              return (some e, st1)
      | .intLit n =>
          let (a, st1) := alloc st (.intV n)
          return (some a, st1)
      | .floatLit q =>
          let (a, st1) := alloc st (.floatV q)
          return (some a, st1)
      | .boolLit b => return (some (nativeBoolToBooleanObject b), st)
      | .strLit s =>
          let (a, st1) := alloc st (.strV s)
          return (some a, st1)
      | .nullLit => return (some NULLa, st)
      | .arrayLit elems => do
          let (addrs, st1) ← evalArrayLiteralElems f elems sid st
          let (a, st2) := allocArrayOf st1 addrs
          return (some a, st2)
      | .hashLit pairs => do
          let (r, st1) ← evalHashLiteralPairs f pairs sid st []
          match r with
          | .inl ps =>
              let (a, st2) := alloc st1 (.hashV ps)
              return (some a, st2)
          | .inr e => return (some e, st1)
      | .funcLit params body =>
          let (a, st1) := alloc st (.funcV params body sid)
          return (some a, st1)
      | .prefixE op right => do
          let (r, st1) ← Eval f right sid st
          match r with
          | none => .crash
          | some ra =>
              let (a, st2) := evalPrefixExpression st1 op ra
              return (some a, st2)
      | .infixE l op r => do
          let (lr, st1) ← Eval f l sid st
          let (rr, st2) ← Eval f r sid st1
          match lr, rr with
          | some la, some ra =>
              let (a, st3) := evalInfixExpression st2 la op ra
              return (some a, st3)
          | _, _ => .crash
      | .postfixE l op => do
          let (lr, st1) ← Eval f l sid st
          match lr with
          | none => .crash
          | some la =>
              let (a, st2) := evalPostfixExpression st1 la op
              return (some a, st2)
      | .assignE target op value => evalAssignExpression f target op value sid st
      | .callE fn args => do
          let (fr, st1) ← Eval f fn sid st
          match fr with
          | none => .crash
          | some fo =>
              if st1.typeOf fo = .errorObj then return (some fo, st1)
              else do
                let (args2, st2) ← evalExpressions f args sid st1
                match args2 with
                | [e1] =>
                    if st2.typeOf e1 = .errorObj then return (some e1, st2)
                    else applyFunction f fo [e1] st2
                | _ => applyFunction f fo args2 st2
      | .methodCallE obj call => evalMethodCallExpression f obj call sid st
      | .indexE left index => do
          let (er, st1) ← Eval f left sid st
          match index with
          | .sliceE start endE => evalSliceExpression f er start endE sid st1
          | _ =>
              match er with
              | none => .crash
              | some e =>
                  match st1.obj e with
                  | .arrV _ _ _ =>
                      evalArrayIndexExpressionFunc f left index sid st1 "" none
                        (fun b off _ i st2 =>
                          .ok ((backGet st2 b).getD (off + i.toNat) NULLa, st2))
                  | .strV _ => evalStringIndexExpression f left index sid st1
                  | .hashV _ =>
                      evalHashIndexExpressionFunc f left index sid st1 "" none
                        (fun h k st2 =>
                          match hashKeyOf (st2.obj k) with
                          | some hk =>
                              match pairsGet (hashPairsAt st2 h) hk with
                              | some kv => .ok (kv.2, st2)
                              | none => .ok (NULLa, st2)
                          | none => .ok (allocErr st2 .nothashable [typeNameAt st2 k]))
                  | _ =>
                      let (a, st2) := allocErr st1 .noindexerror [typeNameAt st1 e]
                      return (some a, st2)
      | .sliceE _ _ => return (none, st)

termination_by structural fuel

/-- Evaluation of a possibly absent node: Go Eval(nil) matches no case and
    returns a nil Object. -/
def evalOpt (fuel : Nat) (node : Option Ast) (sid : Nat) (st : St) :
    Res (Option Addr × St) :=
  match fuel with
  | 0 => .nofuel
  | f + 1 =>
      match node with
      | none => .ok (none, st)
      | some e => Eval f e sid st

termination_by structural fuel

/-- evalProgram of eval.go: run statements in order, skipping empty
    expression statements; a ReturnValue result stops and unwraps, an Error
    result stops; the program's value is the last statement's result. -/
def evalProgram (fuel : Nat) (stmts : List Ast) (sid : Nat) (st : St)
    (acc : Option Addr) : Res (Option Addr × St) :=
  match fuel with
  | 0 => .nofuel
  | f + 1 =>
      match stmts with
      | [] => .ok (acc, st)
      | stmt :: rest =>
          if isEmptyExprStmt stmt then evalProgram f rest sid st acc
          else do
            let (r, st1) ← Eval f stmt sid st
            match r with
            | some a =>
                match st1.obj a with
                | .returnV v => .ok (v, st1)
                | _ =>
                    if st1.typeOf a = .errorObj then .ok (some a, st1)
                    else evalProgram f rest sid st1 (some a)
            | none => evalProgram f rest sid st1 none

termination_by structural fuel

/-- evalBlockStatement of eval.go: like evalProgram, but a ReturnValue is
    propagated unwrapped, and Break and Continue also stop the block. -/
def evalBlockStatement (fuel : Nat) (stmts : List Ast) (sid : Nat) (st : St)
    (acc : Option Addr) : Res (Option Addr × St) :=
  match fuel with
  | 0 => .nofuel
  | f + 1 =>
      match stmts with
      | [] => .ok (acc, st)
      | stmt :: rest =>
          if isEmptyExprStmt stmt then evalBlockStatement f rest sid st acc
          else do
            let (r, st1) ← Eval f stmt sid st
            match r with
            | some a =>
                let t := st1.typeOf a
                if t = .returnValueObj ∨ t = .errorObj then .ok (some a, st1)
                else if t = .breakObj ∨ t = .continueObj then .ok (some a, st1)
                else evalBlockStatement f rest sid st1 (some a)
            | none => evalBlockStatement f rest sid st1 none

termination_by structural fuel

/-- evalLetStatement of eval.go: error REDEFINE when the name is already
    bound in the current frame; otherwise evaluate the initializer and read
    its Type() — for the absent initializer parser error recovery can leave
    (input such as: let x) the result is Go nil and the Type() call is a
    nil-interface panic (crash).  A non-error value is bound via Set, which
    stores the object address itself, and is the statement's value;
    an error initializer propagates without binding. -/
def evalLetStatement (fuel : Nat) (name : String) (v : Option Ast) (sid : Nat)
    (st : St) : Res (Option Addr × St) :=
  match fuel with
  | 0 => .nofuel
  | f + 1 =>
      if (scopeGetCurrent st sid name).isSome then
        let (e, st1) := allocErr st .redefine [name]
        .ok (some e, st1)
      else do
        let (r, st1) ← evalOpt f v sid st
        match r with
        | none => .crash
        | some a =>
            if st1.typeOf a ≠ .errorObj then .ok (some a, scopeSet st1 sid name a)
            else .ok (some a, st1)

termination_by structural fuel

/-- evalExpressions of eval.go: evaluate in order; the first Error result
    short-circuits into a singleton list.  Each result's Type() is read, so
    a nil result is a crash. -/
def evalExpressions (fuel : Nat) (es : List Ast) (sid : Nat) (st : St) :
    Res (List Addr × St) :=
  match fuel with
  | 0 => .nofuel
  | f + 1 =>
      match es with
      | [] => .ok ([], st)
      | e :: rest => do
          let (r, st1) ← Eval f e sid st
          match r with
          | none => .crash
          | some a =>
              if st1.typeOf a = .errorObj then .ok ([a], st1)
              else do
                let (rest2, st2) ← evalExpressions f rest sid st1
                .ok (a :: rest2, st2)

termination_by structural fuel

/-- evalArrayLiteral's element loop: results are appended without any
    error check.  Go would also append a nil result; a nil element is not
    representable here, and no expression a parsed array literal can
    contain evaluates to nil. -/
def evalArrayLiteralElems (fuel : Nat) (es : List Ast) (sid : Nat) (st : St) :
    Res (List Addr × St) :=
  match fuel with
  | 0 => .nofuel
  | f + 1 =>
      match es with
      | [] => .ok ([], st)
      | e :: rest => do
          let (r, st1) ← Eval f e sid st
          match r with
          | none => .crash
          | some a => do
              let (rest2, st2) ← evalArrayLiteralElems f rest sid st1
              .ok (a :: rest2, st2)

termination_by structural fuel

/-- evalHashLiteral's pair loop: an Identifier key becomes a String object
    of its name, any other key is evaluated; a non-hashable key aborts the
    literal with a NOTHASHABLE error (the right summand) — reading the
    key's Type(), a crash when it evaluated to nil; a hashable key has its
    value evaluated and the pair stored, overwriting an earlier pair with
    the same digest exactly as the Go map write does.  Go stores a nil
    value unchecked; a nil value is not representable here and no
    expression a parsed literal can contain evaluates to nil. -/
def evalHashLiteralPairs (fuel : Nat) (pairs : List (Ast × Ast)) (sid : Nat)
    (st : St) (acc : List (HashKeyL × Addr × Addr)) :
    Res ((List (HashKeyL × Addr × Addr) ⊕ Addr) × St) :=
  match fuel with
  | 0 => .nofuel
  | f + 1 =>
      match pairs with
      | [] => .ok (.inl acc, st)
      | (key, value) :: rest => do
          let (k, st1) ←
            (match key with
             | .ident n => (pure (alloc st (.strV n)) : Res (Addr × St))
             | _ => do
                 let (r, st1) ← Eval f key sid st
                 match r with
                 | none => .crash
                 | some a => pure (a, st1))
          match hashKeyOf (st1.obj k) with
          | some hk => do
              let (v, st2) ← Eval f value sid st1
              match v with
              | none => .crash
              | some va =>
                  evalHashLiteralPairs f rest sid st2 (pairsSet acc hk (k, va))
          | none =>
              let (e, st2) := allocErr st1 .nothashable [typeNameAt st1 k]
              .ok (.inr e, st2)

termination_by structural fuel

/-- applyFunction of eval.go: calling a Function binds the arguments
    positionally into a fresh child frame of the captured defining scope
    and unwraps a ReturnValue result; native builtin bodies are not
    embedded (unreachable: the builtins registry is omitted); anything else
    is a not-a-function error. -/
def applyFunction (fuel : Nat) (funcAddr : Addr) (args : List Addr) (st : St) :
    Res (Option Addr × St) :=
  match fuel with
  | 0 => .nofuel
  | f + 1 =>
      match st.obj funcAddr with
      | .funcV params body defScope =>
          let (sub, st1) := newScope st (some defScope)
          match bindParams st1 sub params args with
          | none => .crash
          | some st2 => do
              let (r, st3) ← Eval f body sub st2
              match r with
              | some a =>
                  match st3.obj a with
                  | .returnV v => .ok (v, st3)
                  | _ => .ok (some a, st3)
              | none => .ok (none, st3)
      | .builtinV _ => .ok (none, st)
      | _ =>
          let (e, st1) := allocErr st .notfunc [renderObj st renderFuel 0 funcAddr]
          .ok (some e, st1)

termination_by structural fuel

/-- evalAssignExpression of eval.go: evaluate the right-hand side first,
    determine the target name (or, for an index chain rooted in a
    non-identifier, evaluate that root), fetch the existing value, then
    dispatch on its kind.  Plain = on an identifier goes through
    Scope.Reset; on an index target it falls through to the element-update
    path.  A compound operator whose target is a plain identifier bound to
    an Array or Hash reaches a Go type assertion to IndexExpression, a
    runtime panic. -/
def evalAssignExpression (fuel : Nat) (target : Ast) (op : String) (value : Ast)
    (sid : Nat) (st : St) : Res (Option Addr × St) :=
  match fuel with
  | 0 => .nofuel
  | f + 1 => do
      let (nvr, st1) ← Eval f value sid st
      match nvr with
      | none => .crash
      | some newValue =>
          if st1.typeOf newValue = .errorObj then .ok (some newValue, st1)
          else do
            let (name, oldr, st2) ←
              (match target with
               | .ident n => (pure (n, none, st1) : Res (String × Option Addr × St))
               | .indexE l _ =>
                   match innermostLeft l with
                   | .ident n => pure (n, none, st1)
                   | inner => do
                       let (o, st2) ← Eval f inner sid st1
                       pure ("", o, st2)
               | _ => pure ("", none, st1))
            let old? : Option Addr :=
              match oldr with
              | some o => some o
              | none => scopeGet st2 sid name
            match old? with
            | none =>
                let (e, st3) := allocErr st2 .unknownident [name]
                .ok (some e, st3)
            | some oldValue =>
                let st3 := st2
                if op = "=" && isIdentAst target then
                  match target with
                  | .ident n => .ok (some newValue, (scopeReset st3 sid n newValue).1)
                  | _ => .crash
                else
                  match st3.obj oldValue with
                  | .intV _ =>
                      let (a, st4) := evalNumberAssignExpression st3 name oldValue newValue op sid
                      .ok (some a, st4)
                  | .floatV _ =>
                      let (a, st4) := evalNumberAssignExpression st3 name oldValue newValue op sid
                      .ok (some a, st4)
                  | .strV olds =>
                      (match target with
                       | .indexE _ _ =>
                           let (e, st4) := allocErr st3 (.custom "string is immutable") []
                           .ok (some e, st4)
                       | _ =>
                           if op = "+=" ∧ st3.typeOf newValue = .stringObj then
                             let news := match st3.obj newValue with
                               | .strV t => t
                               | _ => ""
                             let (a, st4) := alloc st3 (.strV (olds ++ news))
                             .ok (some a, (scopeReset st4 sid name a).1)
                           else
                             let (e, st4) := allocErr st3 .infixop
                               [op, "STRING", typeNameAt st3 newValue]
                             .ok (some e, st4))
                  | .arrV _ _ _ =>
                      (match target with
                       | .indexE l i =>
                           evalArrayIndexExpressionFunc f l i sid st3 op (some newValue)
                             (fun b off len idx st4 =>
                               updateArray st4 b off len idx op (some newValue))
                       | _ => .crash)
                  | .hashV _ =>
                      (match target with
                       | .indexE l i =>
                           evalHashIndexExpressionFunc f l i sid st3 op (some newValue)
                             (fun h k st4 => updateHash st4 h k op (some newValue))
                       | _ => .crash)
                  | _ =>
                      let (e, st4) := allocErr st3 .infixop
                        [op, typeNameAt st3 oldValue, typeNameAt st3 newValue]
                      .ok (some e, st4)

termination_by structural fuel

/-- evalArrayIndexExpressionFunc of eval.go: re-evaluate the indexed
    expression and the index, short-circuit errors, then apply the accessor
    to the slice header and the calcIndex-normalized index; a String target
    is immutable; a Hash target goes through updateHash; anything else is
    a not-a-hash error. -/
def evalArrayIndexExpressionFunc (fuel : Nat) (leftAst idxAst : Ast) (sid : Nat)
    (st : St) (op : String) (newValue : Option Addr)
    (fF : Nat → Nat → Nat → Int → St → Res (Addr × St)) : Res (Option Addr × St) :=
  match fuel with
  | 0 => .nofuel
  | f + 1 => do
      let (lr, st1) ← Eval f leftAst sid st
      match lr with
      | none => .crash
      | some la =>
          if st1.typeOf la = .errorObj then .ok (some la, st1)
          else do
            let (ir, st2) ← Eval f idxAst sid st1
            match ir with
            | none => .crash
            | some ia =>
                if st2.typeOf ia = .errorObj then .ok (some ia, st2)
                else
                  match st2.obj la with
                  | .arrV b off len =>
                      let (i, e) := calcIndex (len : Int) (st2.obj ia) false
                      (match e with
                       | some ev =>
                           let (ea, st3) := alloc st2 ev
                           .ok (some ea, st3)
                       | none => do
                           let (r, st3) ← fF b off len i st2
                           .ok (some r, st3))
                  | .strV _ =>
                      let (e2, st3) := allocErr st2 (.custom "string is immutable") []
                      .ok (some e2, st3)
                  | .hashV _ => do
                      let (r, st3) ← updateHash st2 la ia op newValue
                      .ok (some r, st3)
                  | _ =>
                      let (e2, st3) := allocErr st2
                        (.custom (renderObj st2 renderFuel 0 la ++ " is not a hash")) []
                      .ok (some e2, st3)

termination_by structural fuel

/-- evalHashIndexExpressionFunc of eval.go: re-evaluate the indexed
    expression and the index, short-circuit errors, then apply the hash
    accessor; a String target is immutable; an Array target goes through
    updateArray with the raw integer index (no calcIndex — an out-of-range
    index here is a Go slice-bounds panic); anything else is a not-a-hash
    error. -/
def evalHashIndexExpressionFunc (fuel : Nat) (leftAst idxAst : Ast) (sid : Nat)
    (st : St) (op : String) (newValue : Option Addr)
    (fH : Addr → Addr → St → Res (Addr × St)) : Res (Option Addr × St) :=
  match fuel with
  | 0 => .nofuel
  | f + 1 => do
      let (lr, st1) ← Eval f leftAst sid st
      match lr with
      | none => .crash
      | some la =>
          if st1.typeOf la = .errorObj then .ok (some la, st1)
          else do
            let (ir, st2) ← Eval f idxAst sid st1
            match ir with
            | none => .crash
            | some ia =>
                if st2.typeOf ia = .errorObj then .ok (some ia, st2)
                else
                  match st2.obj la with
                  | .strV _ =>
                      let (e2, st3) := allocErr st2 (.custom "string is immutable") []
                      .ok (some e2, st3)
                  | .hashV _ => do
                      let (r, st3) ← fH la ia st2
                      .ok (some r, st3)
                  | .arrV b off len =>
                      (match st2.obj ia with
                       | .intV n => do
                           let (r, st3) ← updateArray st2 b off len n op newValue
                           .ok (some r, st3)
                       | _ =>
                           let (e2, st3) := allocErr st2 .indexint []
                           .ok (some e2, st3))
                  | _ =>
                      let (e2, st3) := allocErr st2
                        (.custom (renderObj st2 renderFuel 0 la ++ " is not a hash")) []
                      .ok (some e2, st3)

termination_by structural fuel

/-- evalSliceExpression of eval.go: the indexed object was already
    evaluated by evalIndexExpression; compute the slice bounds with
    calcIndex (the end bound admits one more), reject start greater than
    end, then build an Array sharing the original backing storage — or an
    independent String copy. -/
def evalSliceExpression (fuel : Nat) (objr : Option Addr) (start : Ast)
    (endE : Option Ast) (sid : Nat) (st : St) : Res (Option Addr × St) :=
  match fuel with
  | 0 => .nofuel
  | f + 1 =>
      match objr with
      | none => .crash
      | some oa =>
          let kindLen : Option Nat :=
            match st.obj oa with
            | .arrV _ _ len => some len
            | .strV s => some s.length
            | _ => none
          match kindLen with
          | none =>
              let (e2, st1) := allocErr st .noindexerror [typeNameAt st oa]
              .ok (some e2, st1)
          | some l => do
              let (sr, st1) ← Eval f start sid st
              match sr with
              | none => .crash
              | some sa =>
                  if st1.typeOf sa = .errorObj then .ok (some sa, st1)
                  else
                    let (startIdx, se) := calcIndex (l : Int) (st1.obj sa) false
                    match se with
                    | some ev =>
                        let (ea, st2) := alloc st1 ev
                        .ok (some ea, st2)
                    | none =>
                        let finish (endIdx : Int) (st2 : St) : Res (Option Addr × St) :=
                          if startIdx > endIdx then
                            let (e2, st3) := allocErr st2 .sliceerror
                              [toString startIdx, toString endIdx]
                            .ok (some e2, st3)
                          else
                            match st2.obj oa with
                            | .arrV b off _ =>
                                let (a, st3) := alloc st2
                                  (.arrV b (off + startIdx.toNat) (endIdx - startIdx).toNat)
                                .ok (some a, st3)
                            | .strV s =>
                                let (a, st3) := alloc st2
                                  (.strV (String.mk ((s.data.drop startIdx.toNat).take
                                    (endIdx - startIdx).toNat)))
                                .ok (some a, st3)
                            | _ =>
                                let (e2, st3) := allocErr st2 .noindexerror [typeNameAt st2 oa]
                                .ok (some e2, st3)
                        match endE with
                        | some eAst => do
                            let (er, st2) ← Eval f eAst sid st1
                            match er with
                            | none => .crash
                            | some ea =>
                                if st2.typeOf ea = .errorObj then .ok (some ea, st2)
                                else
                                  let (ei, ee) := calcIndex (l : Int) (st2.obj ea) true
                                  match ee with
                                  | some ev =>
                                      let (x, st3) := alloc st2 ev
                                      .ok (some x, st3)
                                  | none => finish ei st2
                        | none => finish (l : Int) st1

termination_by structural fuel

/-- evalStringIndexExpression of eval.go: re-evaluate the string and the
    index, short-circuit errors, index at character granularity (Go indexes
    bytes; every verified program is ASCII). -/
def evalStringIndexExpression (fuel : Nat) (leftAst idxAst : Ast) (sid : Nat)
    (st : St) : Res (Option Addr × St) :=
  match fuel with
  | 0 => .nofuel
  | f + 1 => do
      let (lr, st1) ← Eval f leftAst sid st
      match lr with
      | none => .crash
      | some la =>
          if st1.typeOf la = .errorObj then .ok (some la, st1)
          else do
            let (ir, st2) ← Eval f idxAst sid st1
            match ir with
            | none => .crash
            | some ia =>
                if st2.typeOf ia = .errorObj then .ok (some ia, st2)
                else
                  match st2.obj la with
                  | .strV s =>
                      let (i, e) := calcIndex (s.length : Int) (st2.obj ia) false
                      (match e with
                       | some ev =>
                           let (ea, st3) := alloc st2 ev
                           .ok (some ea, st3)
                       | none =>
                           let (a, st3) := alloc st2
                             (.strV (String.mk ((s.data.drop i.toNat).take 1)))
                           .ok (some a, st3))
                  | _ => .crash

termination_by structural fuel

/-- evalMethodCallExpression of eval.go: evaluate the receiver; when the
    call member is a CallExpression, evaluate the arguments (errors are not
    filtered before dispatch) and invoke CallMethod; otherwise (the bare
    obj.name form) report an undefined method — reading the receiver's
    Type(), a crash when the receiver evaluated to nil. -/
def evalMethodCallExpression (fuel : Nat) (objAst callAst : Ast) (sid : Nat)
    (st : St) : Res (Option Addr × St) :=
  match fuel with
  | 0 => .nofuel
  | f + 1 => do
      let (objr, st1) ← Eval f objAst sid st
      match callAst with
      | .callE fnAst margs => do
          let (args, st2) ← evalExpressions f margs sid st1
          match objr with
          | none => .crash
          | some oa => do
              let (r, st3) ← callMethod st2 oa (identName fnAst) args
              .ok (some r, st3)
      | _ =>
          match objr with
          | none => .crash
          | some oa =>
              let (e, st2) := allocErr st1 .nomethoderror
                [identName callAst, typeNameAt st1 oa]
              .ok (some e, st2)

termination_by structural fuel

end

/-! Parser precedence table (parser.go). -/

/-- Precedence level LOWEST (iota order of parser.go). -/
def lowestP : Nat := 1

/-- Precedence level ASSIGN. -/
def assignP : Nat := 2

/-- Precedence level OR. -/
def orP : Nat := 3

/-- Precedence level AND. -/
def andP : Nat := 4

/-- Precedence level EQUALS. -/
def equalsP : Nat := 5

/-- Precedence level LESSGREATER. -/
def lessgreaterP : Nat := 6

/-- Precedence level SLICE. -/
def sliceP : Nat := 7

/-- Precedence level SUM. -/
def sumP : Nat := 8

/-- Precedence level PRODUCT. -/
def productP : Nat := 9

/-- Precedence level PREFIX. -/
def prefixP : Nat := 10

/-- Precedence level CALL. -/
def callP : Nat := 11

/-- Precedence level INDEX. -/
def indexP : Nat := 12

/-- Precedence level INCRDECR. -/
def incrdecrP : Nat := 13

/-- The operator token types that appear in the parser's precedences map —
    exactly its 24 keys. -/
inductive TokenType
  | ASSIGN | AND | OR | EQ | NEQ | LT | LTE | GT | GTE | COLON
  | PLUS | MINUS | PLUS_A | MINUS_A | MOD | ASTERISK | ASTERISK_A
  | SLASH | SLASH_A | LPAREN | DOT | LBRACKET | INCR | DECR
  deriving DecidableEq, Repr

/-- The precedences map of parser.go, entry for entry. -/
def precedences : TokenType → Nat
  | .ASSIGN => assignP
  | .AND => andP
  | .OR => orP
  | .EQ => equalsP
  | .NEQ => equalsP
  | .LT => lessgreaterP
  | .LTE => lessgreaterP
  | .GT => lessgreaterP
  | .GTE => lessgreaterP
  | .COLON => sliceP
  | .PLUS => sumP
  | .MINUS => sumP
  | .PLUS_A => sumP
  | .MINUS_A => sumP
  | .MOD => productP
  | .ASTERISK => productP
  | .ASTERISK_A => productP
  | .SLASH => productP
  | .SLASH_A => productP
  | .LPAREN => callP
  | .DOT => callP
  | .LBRACKET => indexP
  | .INCR => incrdecrP
  | .DECR => incrdecrP

/-! Running whole programs of the embedded fragment. -/

/-- Evaluation fuel ample for every verified program. -/
def runFuel : Nat := 200

/-- Observable outcome of evaluating a program: the final Object
    (dereferenced), a Go nil Object, a Go runtime panic, or fuel
    exhaustion of the embedding. -/
inductive Outcome
  | val (v : ObjValue)
  | nilObj
  | crashed
  | outOfFuel

/-- Evaluate a program against a fresh top-level scope, as the driver does. -/
def runStang (stmts : List Ast) : Outcome :=
  match Eval runFuel (.program stmts) 0 initSt with
  | .ok (some a, st) => .val (st.obj a)
  | .ok (none, _) => .nilObj
  | .crash => .crashed
  | .nofuel => .outOfFuel

/-- The kind of a program's final value, when it has one. -/
def runKind (stmts : List Ast) : Option ObjType :=
  match runStang stmts with
  | .val v => some v.type
  | _ => none

/-- Whether evaluating the program is a Go runtime panic. -/
def runCrashes (stmts : List Ast) : Bool :=
  match runStang stmts with
  | .crashed => true
  | _ => false

/-- The array literal [1, 2, 3]. -/
def arr123 : Ast := .arrayLit [.intLit 1, .intLit 2, .intLit 3]

/-- The error kind of a program's final value, when it is an Error. -/
def runErrKind (stmts : List Ast) : Option ErrKind :=
  match runStang stmts with
  | .val (.errV k _) => some k
  | _ => none

/-- The kind of the object a (result address, state) pair denotes. -/
def resTypeOf (p : Addr × St) : ObjType := p.2.typeOf p.1

/-- Unfolding lemma: typeOf reads the dereferenced object's kind. -/
@[simp] theorem St.typeOf_eq (st : St) (a : Addr) : st.typeOf a = (st.obj a).type := rfl

/-- A freshly allocated address dereferences to the allocated value. -/
@[simp] theorem obj_alloc_fresh (st : St) (v : ObjValue) :
    (alloc st v).2.obj (alloc st v).1 = v := by
  simp [alloc, St.obj, List.getD]

/-- Allocation preserves the objects at existing addresses. -/
theorem obj_alloc_lt (st : St) (v : ObjValue) (x : Addr) (h : x < st.heap.length) :
    (alloc st v).2.obj x = st.obj x := by
  simp [alloc, St.obj, List.getD, List.getElem?_append, h]

/-- Scope.Reset only touches the frame store: the heap is unchanged. -/
@[simp] theorem obj_scopeReset (st : St) (sid : Nat) (k : String) (a x : Addr) :
    ((scopeReset st sid k a).1).obj x = st.obj x := by
  cases h : storeGet (frameOf st (findFrame st st.frames.length sid k)).store k <;>
    simp [scopeReset, h, St.obj]

/-- Scope.Set only touches the frame store: the heap is unchanged. -/
@[simp] theorem obj_scopeSet (st : St) (sid : Nat) (k : String) (a x : Addr) :
    (scopeSet st sid k a).obj x = st.obj x := rfl

/-- Bind on a ready outcome reduces. -/
@[simp] theorem res_bind_ok {α β : Type} (x : α) (f : α → Res β) :
    (Res.ok x >>= f) = f x := rfl

/-- Bind on a pure outcome reduces. -/
@[simp] theorem res_bind_pure {α β : Type} (x : α) (f : α → Res β) :
    ((pure x : Res α) >>= f) = f x := rfl

/-- The element kinds of a program's final value when it is an Array. -/
def arrayElemKinds (stmts : List Ast) : Option (List ObjType) :=
  match Eval runFuel (.program stmts) 0 initSt with
  | .ok (some a, st) =>
      match st.obj a with
      | .arrV b off len =>
          some ((((backGet st b).drop off).take len).map fun x => (st.obj x).type)
      | _ => none
  | _ => none

/-! Claim C1: array index range and out-of-range behavior. -/

/-- C1, counterexample: the claim says both [1, 2, 3][3] and [1, 2, 3][-1]
    evaluate to Null; in fact [1, 2, 3][-1] evaluates to Integer 3 (negative
    indices count from the end) and [1, 2, 3][3] evaluates to an Error
    value, and neither is Null. -/
theorem C1_counterexample :
    runKind [.exprStmt (some (.indexE arr123 (.intLit (-1))))] = some .integerObj ∧
    runKind [.exprStmt (some (.indexE arr123 (.intLit 3)))] = some .errorObj ∧
    some ObjType.integerObj ≠ some ObjType.nullObj ∧
    some ObjType.errorObj ≠ some ObjType.nullObj :=
  ⟨rfl, rfl, by decide, by decide⟩

/-- C1, amended: for an array of length L, indexing is defined exactly on
    the indices in [-L, L-1] (calcIndex reports no error there and
    normalizes a negative index by adding the length); an out-of-range
    index yields an INDEXERROR Error value carrying the original index and
    the valid bounds — not Null and not a crash.  Concretely,
    [1, 2, 3][3] evaluates to that Error and [1, 2, 3][-1] to Integer 3. -/
theorem C1_indexing_amended :
    (∀ (L : Nat) (i : Int), -(L : Int) ≤ i → i < (L : Int) →
      calcIndex (L : Int) (.intV i) false = (if i < 0 then i + L else i, none)) ∧
    (∀ (L : Nat) (i : Int), (L : Int) ≤ i →
      (calcIndex (L : Int) (.intV i) false).2 =
        some (.errV .indexerror [toString i, toString (0 : Int), toString ((L : Int) - 1)])) ∧
    (∀ (L : Nat) (i : Int), i < -(L : Int) →
      (calcIndex (L : Int) (.intV i) false).2 =
        some (.errV .indexerror [toString i, toString (-1 : Int), toString (-(L : Int))])) ∧
    runStang [.exprStmt (some (.indexE arr123 (.intLit 3)))] =
      .val (.errV .indexerror ["3", "0", "2"]) ∧
    runStang [.exprStmt (some (.indexE arr123 (.intLit (-1))))] = .val (.intV 3) := by
  refine ⟨?_, ?_, ?_, rfl, rfl⟩
  · intro L i h1 h2
    simp [calcIndex]
    split_ifs with hge hlt <;> first | rfl | omega
  · intro L i h
    simp [calcIndex]
    split_ifs with hge hlt <;> first | rfl | omega
  · intro L i h
    simp [calcIndex]
    split_ifs with hge hlt <;> first | rfl | omega

/-- C1, witness: the amended characterization applied at length 3 with the
    in-range index -2 and the out-of-range indices 5 and -9. -/
theorem C1_indexing_amended_witness :
    calcIndex ((3 : Nat) : Int) (.intV (-2)) false =
      (if (-2 : Int) < 0 then (-2 : Int) + ((3 : Nat) : Int) else (-2 : Int), none) ∧
    (calcIndex ((3 : Nat) : Int) (.intV 5) false).2 =
      some (.errV .indexerror [toString (5 : Int), toString (0 : Int),
        toString (((3 : Nat) : Int) - 1)]) ∧
    (calcIndex ((3 : Nat) : Int) (.intV (-9)) false).2 =
      some (.errV .indexerror [toString (-9 : Int), toString (-1 : Int),
        toString (-((3 : Nat) : Int))]) :=
  ⟨C1_indexing_amended.1 3 (-2) (by decide) (by decide),
   C1_indexing_amended.2.1 3 5 (by decide),
   C1_indexing_amended.2.2.1 3 (-9) (by decide)⟩

/-! Claim C2: equality semantics. -/

/-- C2, counterexample: the claim says 1 == 1.0 (one Integer, one Float —
    different kinds) evaluates to the Boolean false; in fact the numeric
    case of evalInfixExpression precedes the equality case, so the operands
    are promoted and compared numerically: the result is the Boolean
    true. -/
theorem C2_counterexample :
    runStang [.exprStmt (some (.infixE (.intLit 1) "==" (.floatLit 1)))] =
      .val (.boolV true) ∧
    ObjValue.boolV true ≠ ObjValue.boolV false :=
  ⟨rfl, by simp⟩

/-- C2, amended: == implements value equality for same-kind pairs of
    Boolean, Null, Integer, Float, String, except that a pair of numeric
    operands (Integer or Float, in any combination) is compared by numeric
    promotion — so 1 == 1.0 is true; a non-numeric pair of distinct kinds,
    and every same-kind pair of any other kind (Array, Hash, Function,
    etc.), is unconditionally not equal. -/
theorem C2_equality_amended :
    (∀ (st : St) (la ra : Addr), isNumber (st.obj la) → isNumber (st.obj ra) →
      evalInfixExpression st la "==" ra =
        (nativeBoolToBooleanObject (decide (numVal (st.obj la) = numVal (st.obj ra))), st)) ∧
    (∀ (st : St) (la ra : Addr), (st.obj la).type ≠ .errorObj →
      (st.obj ra).type ≠ .errorObj →
      ¬(isNumber (st.obj la) ∧ isNumber (st.obj ra)) →
      evalInfixExpression st la "==" ra =
        (nativeBoolToBooleanObject (evalEquality (st.obj la) (st.obj ra)), st)) ∧
    (∀ l r : ObjValue, l.type ≠ r.type → evalEquality l r = false) ∧
    (∀ l r : ObjValue,
      l.type ∈ [ObjType.arrayObj, .hashObj, .functionObj, .builtinObj,
        .returnValueObj, .breakObj, .continueObj] →
      evalEquality l r = false) ∧
    runStang [.exprStmt (some (.infixE (.intLit 1) "==" (.floatLit 1)))] =
      .val (.boolV true) := by
  refine ⟨?_, ?_, ?_, ?_, rfl⟩
  · intro st la ra h1 h2
    have hl : (st.obj la).type ≠ .errorObj := by
      cases h : st.obj la <;> simp_all [isNumber, ObjValue.type]
    have hr : (st.obj ra).type ≠ .errorObj := by
      cases h : st.obj ra <;> simp_all [isNumber, ObjValue.type]
    simp [evalInfixExpression, hl, hr, h1, h2, evalNumberInfixExpression]
  · intro st la ra hl hr hnum
    have hb : (isNumber (st.obj la) && isNumber (st.obj ra)) = false := by
      rcases Bool.eq_false_or_eq_true (isNumber (st.obj la) && isNumber (st.obj ra)) with h | h
      · exact absurd (by simpa [Bool.and_eq_true] using h) hnum
      · exact h
    simp [evalInfixExpression, hl, hr, hb]
  · intro l r h
    simp [evalEquality, h]
  · intro l r h
    cases l <;> cases r <;> simp_all [evalEquality, ObjValue.type]

/-- C2, witness: the amended equality applied at concrete inputs — an
    Integer 1 and a Float 1 compare numerically to true; a Boolean and Null
    go through evalEquality; an Integer and a Null are of different kinds;
    two Array objects are never equal. -/
theorem C2_equality_amended_witness :
    evalInfixExpression (alloc (alloc initSt (.intV 1)).2 (.floatV 1)).2 5 "==" 6 =
      (nativeBoolToBooleanObject (decide
        (numVal ((alloc (alloc initSt (.intV 1)).2 (.floatV 1)).2.obj 5) =
         numVal ((alloc (alloc initSt (.intV 1)).2 (.floatV 1)).2.obj 6))),
       (alloc (alloc initSt (.intV 1)).2 (.floatV 1)).2) ∧
    evalInfixExpression initSt TRUEa "==" NULLa =
      (nativeBoolToBooleanObject (evalEquality (initSt.obj TRUEa) (initSt.obj NULLa)),
       initSt) ∧
    evalEquality (.intV 1) .nullV = false ∧
    evalEquality (.arrV 0 0 0) (.arrV 1 0 0) = false :=
  ⟨C2_equality_amended.1 _ 5 6 (by decide) (by decide),
   C2_equality_amended.2.1 initSt TRUEa NULLa (by decide) (by decide) (by decide),
   C2_equality_amended.2.2.1 (.intV 1) .nullV (by decide),
   C2_equality_amended.2.2.2.1 (.arrV 0 0 0) (.arrV 1 0 0) (by decide)⟩

/-! Claim C3: tolerance of absent AST sub-nodes. -/

/-- C3: the spec requires the evaluator to treat absent sub-nodes as a
    benign no-op, returning an Object; evaluating the recovery parse of the
    input (let x) — a LetStatement whose initializer is absent — instead
    reads Type() on the nil result of evaluating the absent node, a
    nil-interface method call: a Go runtime panic.  By contrast an empty
    expression statement is indeed tolerated (skipped, program result
    nil). -/
theorem C3_absent_initializer_crash :
    runCrashes [.letStmt "x" none] = true ∧
    runStang [.exprStmt none] = .nilObj :=
  ⟨rfl, rfl⟩

/-! Claim C4: String split never crashing. -/

/-- C4: the claim says split with one non-String argument returns an
    ARGUMENTTYPEERROR Error value; the source reads args[1].Type() after
    checking len(args) == 1, so the call "abc".split(1) is an
    index-out-of-range runtime panic.  The non-crashing clauses hold: one
    String argument yields an Array of String, and a wrong arity yields an
    ARGUMENTNUMERROR Error. -/
theorem C4_split_crash :
    runCrashes [.exprStmt (some (.methodCallE (.strLit "abc")
      (.callE (.ident "split") [.intLit 1])))] = true ∧
    arrayElemKinds [.exprStmt (some (.methodCallE (.strLit "a,b")
      (.callE (.ident "split") [.strLit ","])))] =
        some [.stringObj, .stringObj] ∧
    runErrKind [.exprStmt (some (.methodCallE (.strLit "abc")
      (.callE (.ident "split") [])))] = some .argumentnumerror :=
  ⟨rfl, rfl, rfl⟩

/-! Claim C5: division by zero. -/

/-- C5, counterexample: the claim says every compound division of a
    numeric left-hand value by a zero numeric right-hand side is a
    DIVIDEBYZERO error; in fact the scalar compound path only checks the
    divisor in its Integer-Integer branch, so (let a = 5.0; a /= 0)
    produces a Float (Go: an IEEE infinity), not an Error. -/
theorem C5_counterexample :
    runKind [.letStmt "a" (some (.floatLit 5)),
      .exprStmt (some (.assignE (.ident "a") "/=" (.intLit 0)))] = some .floatObj ∧
    some ObjType.floatObj ≠ some ObjType.errorObj :=
  ⟨rfl, by decide⟩

/-- C5, amended: plain division by a zero numeric right-hand side is
    always DIVIDEBYZERO (the check sits in evalNumberInfixExpression ahead
    of both result forms); compound /= is DIVIDEBYZERO for an
    Integer-Integer scalar target and for numeric array and hash element
    targets (updateHash checks the zero divisor for an Integer or Float
    mapped value whatever numeric form the divisor takes), but a scalar /=
    with a Float on either side divides without any zero check and
    produces a Float.  Concretely: 5/0 and (let a = 5; a /= 0) are
    DIVIDEBYZERO, ([5.0][0] /= 0) and ([5][0] /= 0) are DIVIDEBYZERO,
    (let h = (1:5.0); h[1] /= 0) and (let h = (1:5); h[1] /= 0) are
    DIVIDEBYZERO, while (let a = 5.0; a /= 0) yields a Float. -/
theorem C5_divzero_amended :
    (∀ (st : St) (la ra : Addr), isNumber (st.obj la) →
      (st.obj ra = .intV 0 ∨ st.obj ra = .floatV 0) →
      evalNumberInfixExpression st la "/" ra = allocErr st .dividebyzero []) ∧
    (∀ (st : St) (name : String) (la ra : Addr) (sid : Nat) (n : Int),
      st.obj la = .intV n → st.obj ra = .intV 0 →
      evalNumberAssignExpression st name la ra "/=" sid = allocErr st .dividebyzero []) ∧
    (∀ (st : St) (name : String) (la ra : Addr) (sid : Nat) (x : ℚ),
      st.obj la = .floatV x → (st.obj ra = .intV 0 ∨ st.obj ra = .floatV 0) →
      resTypeOf (evalNumberAssignExpression st name la ra "/=" sid) = .floatObj) ∧
    (∀ (st : St) (h k nv oldAddr key0 : Addr) (hk : HashKeyL),
      hashKeyOf (st.obj k) = some hk →
      pairsGet (hashPairsAt st h) hk = some (key0, oldAddr) →
      isNumber (st.obj oldAddr) →
      (st.obj nv = .intV 0 ∨ st.obj nv = .floatV 0) →
      updateHash st h k "/=" (some nv) = .ok (allocErr st .dividebyzero [])) ∧
    runErrKind [.exprStmt (some (.infixE (.intLit 5) "/" (.intLit 0)))] =
      some .dividebyzero ∧
    runErrKind [.letStmt "a" (some (.intLit 5)),
      .exprStmt (some (.assignE (.ident "a") "/=" (.intLit 0)))] = some .dividebyzero ∧
    runErrKind [.letStmt "a" (some (.arrayLit [.floatLit 5])),
      .exprStmt (some (.assignE (.indexE (.ident "a") (.intLit 0)) "/=" (.intLit 0)))] =
      some .dividebyzero ∧
    runErrKind [.letStmt "a" (some (.arrayLit [.intLit 5])),
      .exprStmt (some (.assignE (.indexE (.ident "a") (.intLit 0)) "/=" (.intLit 0)))] =
      some .dividebyzero ∧
    runErrKind [.letStmt "h" (some (.hashLit [(.intLit 1, .floatLit 5)])),
      .exprStmt (some (.assignE (.indexE (.ident "h") (.intLit 1)) "/=" (.intLit 0)))] =
      some .dividebyzero ∧
    runErrKind [.letStmt "h" (some (.hashLit [(.intLit 1, .intLit 5)])),
      .exprStmt (some (.assignE (.indexE (.ident "h") (.intLit 1)) "/=" (.intLit 0)))] =
      some .dividebyzero ∧
    runKind [.letStmt "a" (some (.floatLit 5)),
      .exprStmt (some (.assignE (.ident "a") "/=" (.intLit 0)))] = some .floatObj := by
  refine ⟨?_, ?_, ?_, ?_, rfl, rfl, rfl, rfl, rfl, rfl, rfl⟩
  · intro st la ra h1 h2
    rcases h2 with h2 | h2 <;> simp [evalNumberInfixExpression, h2, numVal]
  · intro st name la ra sid n h1 h2
    simp [evalNumberAssignExpression, h1, h2, isNumber, ObjValue.type, numVal]
  · intro st name la ra sid x h1 h2
    rcases h2 with h2 | h2 <;>
      simp [evalNumberAssignExpression, h1, h2, isNumber, ObjValue.type, numVal, resTypeOf]
  · intro st h k nv oldAddr key0 hk hkey hpair hnum hzero
    rcases hzero with hz | hz <;> cases hold : st.obj oldAddr <;>
      simp_all [updateHash, isNumber, ObjValue.type, hkey, hpair, hz, hold, numVal]

/-- C5, witness: the amended division facts applied at a state holding an
    Integer 5, a Float 5 and an Integer 0, and at a state holding a Hash
    that maps the Integer key 1 to an Integer 7. -/
theorem C5_divzero_amended_witness :
    evalNumberInfixExpression
      (alloc (alloc (alloc initSt (.intV 5)).2 (.floatV 5)).2 (.intV 0)).2 5 "/" 7 =
      allocErr (alloc (alloc (alloc initSt (.intV 5)).2 (.floatV 5)).2 (.intV 0)).2
        .dividebyzero [] ∧
    evalNumberAssignExpression
      (alloc (alloc (alloc initSt (.intV 5)).2 (.floatV 5)).2 (.intV 0)).2 "a" 5 7 "/=" 0 =
      allocErr (alloc (alloc (alloc initSt (.intV 5)).2 (.floatV 5)).2 (.intV 0)).2
        .dividebyzero [] ∧
    resTypeOf (evalNumberAssignExpression
      (alloc (alloc (alloc initSt (.intV 5)).2 (.floatV 5)).2 (.intV 0)).2 "a" 6 7 "/=" 0) =
      .floatObj ∧
    updateHash
      (alloc (alloc (alloc (alloc initSt (.intV 7)).2 (.intV 1)).2
        (.hashV [(⟨.integerObj, 1⟩, (6, 5))])).2 (.intV 0)).2 7 6 "/=" (some 8) =
      .ok (allocErr
        (alloc (alloc (alloc (alloc initSt (.intV 7)).2 (.intV 1)).2
          (.hashV [(⟨.integerObj, 1⟩, (6, 5))])).2 (.intV 0)).2 .dividebyzero []) :=
  ⟨C5_divzero_amended.1 _ 5 7 (by decide) (Or.inl rfl),
   C5_divzero_amended.2.1 _ "a" 5 7 0 5 rfl rfl,
   C5_divzero_amended.2.2.1 _ "a" 6 7 0 5 rfl (Or.inl rfl),
   C5_divzero_amended.2.2.2.1 _ 7 6 8 5 6 ⟨.integerObj, 1⟩
     (by decide) (by decide) (by decide) (Or.inl rfl)⟩

/-! Claim C6: the parser precedence table. -/

/-- C6, counterexample: the claim says all five assignment tokens map to
    the ASSIGN level; in fact only = does — += and -= map to SUM, *= and
    /= map to PRODUCT. -/
theorem C6_counterexample :
    precedences .PLUS_A = sumP ∧ precedences .MINUS_A = sumP ∧
    precedences .ASTERISK_A = productP ∧ precedences .SLASH_A = productP ∧
    sumP ≠ assignP ∧ productP ≠ assignP := by
  decide

/-- C6, amended: the precedence levels are ordered
    LOWEST < ASSIGN < OR < AND < EQUALS < LESSGREATER < SLICE < SUM <
    PRODUCT < PREFIX < CALL < INDEX < INCRDECR, and the precedences map
    sends = to ASSIGN; += and -= to SUM; *= and /= to PRODUCT; && to AND;
    || to OR; == and != to EQUALS; <, <=, >, >= to LESSGREATER; : to
    SLICE; + and - to SUM; %, * and / to PRODUCT; ( and . to CALL; [ to
    INDEX; ++ and -- to INCRDECR. -/
theorem C6_precedences_amended :
    lowestP < assignP ∧ assignP < orP ∧ orP < andP ∧ andP < equalsP ∧
    equalsP < lessgreaterP ∧ lessgreaterP < sliceP ∧ sliceP < sumP ∧
    sumP < productP ∧ productP < prefixP ∧ prefixP < callP ∧
    callP < indexP ∧ indexP < incrdecrP ∧
    precedences .ASSIGN = assignP ∧
    precedences .PLUS_A = sumP ∧ precedences .MINUS_A = sumP ∧
    precedences .ASTERISK_A = productP ∧ precedences .SLASH_A = productP ∧
    precedences .AND = andP ∧ precedences .OR = orP ∧
    precedences .EQ = equalsP ∧ precedences .NEQ = equalsP ∧
    precedences .LT = lessgreaterP ∧ precedences .LTE = lessgreaterP ∧
    precedences .GT = lessgreaterP ∧ precedences .GTE = lessgreaterP ∧
    precedences .COLON = sliceP ∧
    precedences .PLUS = sumP ∧ precedences .MINUS = sumP ∧
    precedences .MOD = productP ∧ precedences .ASTERISK = productP ∧
    precedences .SLASH = productP ∧
    precedences .LPAREN = callP ∧ precedences .DOT = callP ∧
    precedences .LBRACKET = indexP ∧
    precedences .INCR = incrdecrP ∧ precedences .DECR = incrdecrP := by
  decide

/-! Claim C7: array slice aliasing. -/

/-- C7: slicing an Array shares the element storage with the original —
    after (let a = [1,2,3]; let b = a[0:2]) an index-assignment b[0] = 99
    is observable as a[0] = 99, and conversely a[1] = 88 is observable as
    b[1] = 88. -/
theorem C7_slice_aliasing :
    runStang [.letStmt "a" (some arr123),
      .letStmt "b" (some (.indexE (.ident "a") (.sliceE (.intLit 0) (some (.intLit 2))))),
      .exprStmt (some (.assignE (.indexE (.ident "b") (.intLit 0)) "=" (.intLit 99))),
      .exprStmt (some (.indexE (.ident "a") (.intLit 0)))] = .val (.intV 99) ∧
    runStang [.letStmt "a" (some arr123),
      .letStmt "b" (some (.indexE (.ident "a") (.sliceE (.intLit 0) (some (.intLit 2))))),
      .exprStmt (some (.assignE (.indexE (.ident "a") (.intLit 1)) "=" (.intLit 88))),
      .exprStmt (some (.indexE (.ident "b") (.intLit 1)))] = .val (.intV 88) :=
  ⟨rfl, rfl⟩

/-! Claim C8: strict Boolean operators. -/

/-- C8: over non-error operands, && and || always return the Boolean
    combining the operands' truthiness; and the evaluator evaluates the
    left and then the right operand fully before combining — there is no
    short-circuit: in (let a = 0; false && a++; a) the right operand runs
    and a ends at 1, and in (let a = 0; a++ && a++; a) both operands run
    and a ends at 2. -/
theorem C8_logical_ops :
    (∀ (st : St) (la ra : Addr), (st.obj la).type ≠ .errorObj →
      (st.obj ra).type ≠ .errorObj →
      evalInfixExpression st la "&&" ra =
        (nativeBoolToBooleanObject (isTruthy (st.obj la) && isTruthy (st.obj ra)), st)) ∧
    (∀ (st : St) (la ra : Addr), (st.obj la).type ≠ .errorObj →
      (st.obj ra).type ≠ .errorObj →
      evalInfixExpression st la "||" ra =
        (nativeBoolToBooleanObject (isTruthy (st.obj la) || isTruthy (st.obj ra)), st)) ∧
    runStang [.letStmt "a" (some (.intLit 0)),
      .exprStmt (some (.infixE (.boolLit false) "&&" (.postfixE (.ident "a") "++"))),
      .exprStmt (some (.ident "a"))] = .val (.intV 1) ∧
    runStang [.letStmt "a" (some (.intLit 0)),
      .exprStmt (some (.infixE (.postfixE (.ident "a") "++") "&&"
        (.postfixE (.ident "a") "++"))),
      .exprStmt (some (.ident "a"))] = .val (.intV 2) := by
  refine ⟨?_, ?_, rfl, rfl⟩
  · intro st la ra hl hr
    simp [evalInfixExpression, hl, hr]
  · intro st la ra hl hr
    simp [evalInfixExpression, hl, hr]

/-- C8, witness: the strict Boolean operators applied to the TRUE and NULL
    singletons of the initial state. -/
theorem C8_logical_ops_witness :
    evalInfixExpression initSt TRUEa "&&" NULLa =
      (nativeBoolToBooleanObject (isTruthy (initSt.obj TRUEa) &&
        isTruthy (initSt.obj NULLa)), initSt) ∧
    evalInfixExpression initSt TRUEa "||" NULLa =
      (nativeBoolToBooleanObject (isTruthy (initSt.obj TRUEa) ||
        isTruthy (initSt.obj NULLa)), initSt) :=
  ⟨C8_logical_ops.1 initSt TRUEa NULLa (by decide) (by decide),
   C8_logical_ops.2.1 initSt TRUEa NULLa (by decide) (by decide)⟩

/-! Claim C9: bindings store object references; increment mutates in
    place. -/

/-- C9: (let b = a) binds b to the very address already bound to a (Set
    stores the Object pointer itself), and ++ mutates the shared numeric
    object in place, so the increment is observable through the other
    binding: (let a = 1; let b = a; a++; b) is Integer 2, and the same
    sharing holds for function-argument binding:
    (let a = 1; let f = function(x)(x++); f(a); a) is Integer 2. -/
theorem C9_reference_binding :
    (∀ (f : Nat) (st : St) (sid : Nat) (a : Addr),
      scopeGetCurrent st sid "b" = none → scopeGet st sid "a" = some a →
      (st.obj a).type ≠ .errorObj →
      Eval (f + 4) (.letStmt "b" (some (.ident "a"))) sid st =
        .ok (some a, scopeSet st sid "b" a)) ∧
    runStang [.letStmt "a" (some (.intLit 1)), .letStmt "b" (some (.ident "a")),
      .exprStmt (some (.postfixE (.ident "a") "++")),
      .exprStmt (some (.ident "b"))] = .val (.intV 2) ∧
    runStang [.letStmt "a" (some (.intLit 1)),
      .letStmt "f" (some (.funcLit ["x"]
        (.blockStmt [.exprStmt (some (.postfixE (.ident "x") "++"))]))),
      .exprStmt (some (.callE (.ident "f") [.ident "a"])),
      .exprStmt (some (.ident "a"))] = .val (.intV 2) := by
  refine ⟨?_, rfl, rfl⟩
  intro f st sid a hb ha he
  simp [Eval, evalLetStatement, evalOpt, hb, ha, he]

/-- C9, witness: binding b from a in a state where a is bound to the
    Integer 1 at address 5 makes b denote address 5 itself. -/
theorem C9_reference_binding_witness :
    Eval 4 (.letStmt "b" (some (.ident "a"))) 0
      (scopeSet (alloc initSt (.intV 1)).2 0 "a" 5) =
      .ok (some 5, scopeSet (scopeSet (alloc initSt (.intV 1)).2 0 "a" 5) 0 "b" 5) :=
  C9_reference_binding.1 0 (scopeSet (alloc initSt (.intV 1)).2 0 "a" 5) 0 5
    (by decide) (by decide) (by decide)

/-! Claim C10: prefix minus on non-numeric operands. -/

/-- C10: the prefix - operator on every operand that is neither an Integer
    nor a Float (String, Boolean, Null, Array, Hash, Function, Builtin)
    evaluates to the NULL singleton, not an unsupported-prefix-operator
    error — the same silent-Null policy as ++ and --. -/
theorem C10_minus_null (st : St) (a : Addr)
    (h : (st.obj a).type ∈ [ObjType.stringObj, .booleanObj, .nullObj, .arrayObj,
      .hashObj, .functionObj, .builtinObj]) :
    evalPrefixExpression st "-" a = (NULLa, st) := by
  cases hv : st.obj a <;>
    simp_all [evalPrefixExpression, evalMinusPrefixExpression, ObjValue.type, hv]

/-- C10, witness: prefix minus of the NULL singleton, and of the TRUE
    singleton, is NULL. -/
theorem C10_minus_null_witness :
    evalPrefixExpression initSt "-" NULLa = (NULLa, initSt) ∧
    evalPrefixExpression initSt "-" TRUEa = (NULLa, initSt) :=
  ⟨C10_minus_null initSt NULLa (by decide), C10_minus_null initSt TRUEa (by decide)⟩

end Stang
